import Mathlib

/-!
Shallow embedding of the tunshell shell-server session state machine
(`tunshell-client/src/shell/server/mod.rs`, `impl ShellServer`):
`wait_for_key`, `start_shell`, `steam_shell_io` and `run`.

Concurrency is made explicit:
* the `tokio::select!` timeout races in `wait_for_key` / `start_shell` are a
  boolean input (`true` means the 3000 ms delay branch won, i.e. no message
  arrived in time);
* the per-iteration race of the streaming loop is a schedule
  (`List Branch`), each entry saying which of the two racing futures
  (`shell.read` vs `stream.next`) resolved first in that iteration;
* the 500 ms linger (`time::delay_for(Duration::from_millis(500))`) on the
  success path of `run` is recorded as the `lingered` flag of the result.

The tunnel transport is a `Transport`: the list of not-yet-read inbound
stream items (`stream.next()` yields `Some(Ok(msg))`, `Some(Err(err))` for a
decode failure, or `None` once the list is exhausted, i.e. clean stream
end), a script of outcomes for successive `stream.write` calls, and the list
of server messages written successfully so far.

The shell provider (the `Shell` trait object returned by `start_shell`) is a
`ShellModel`: scripted pending output chunks (or read errors), the value of
`exit_code()`, and fault scripts plus histories for `write` and `resize`.
`PtyShell` / `FallbackShell` internals live outside the embedded source;
only the capability surface used by `steam_shell_io` is modelled.
-/

namespace Tunshell

/-- Window size carried by `StartShell` and `Resize` (`WindowSize(u16, u16)`
in the protocol; the session logic only passes it through). -/
structure WindowSize where
  cols : Nat
  rows : Nat
deriving DecidableEq

/-- Payload of `StartShell` (`StartShellPayload { term, size }`). -/
structure StartShellPayload where
  term : String
  size : WindowSize
deriving DecidableEq

/-- `ShellClientMessage`: the peer-to-session message enumeration. -/
inductive ShellClientMessage where
  | Key (key : String)
  | StartShell (payload : StartShellPayload)
  | Stdin (payload : List Nat)
  | Resize (size : WindowSize)
  | Error (message : String)
deriving DecidableEq

/-- `ShellServerMessage`: the session-to-peer message enumeration. -/
inductive ShellServerMessage where
  | KeyAccepted
  | KeyRejected
  | Stdout (bytes : List Nat)
  | Exited (code : Int)
deriving DecidableEq

/-- `anyhow::Error` as the session builds it: either `Error::msg s`, or an
error wrapped by `.context ctx`. -/
inductive SessionError where
  | msg (s : String)
  | context (ctx : String) (inner : SessionError)
deriving DecidableEq

/-- Stand-in for the `{:?}` debug formatting used in the two
"received unexpected message" error strings; the session logic never
inspects this text. -/
def describeClient : ShellClientMessage → String
  | ShellClientMessage.Key k => "Key " ++ k
  | ShellClientMessage.StartShell p => "StartShell " ++ p.term
  | ShellClientMessage.Stdin _ => "Stdin"
  | ShellClientMessage.Resize _ => "Resize"
  | ShellClientMessage.Error e => "Error " ++ e

/-- One item produced by `stream.next()` while the stream is still open:
a decoded message, or a decode failure (`Some(Err(err))`). -/
inductive StreamItem where
  | ok (m : ShellClientMessage)
  | invalid (e : String)
deriving DecidableEq

/-- The session's view of the tunnel stream (`ShellStream`): pending inbound
items (exhausted list = clean stream end, `stream.next()` returns `None`),
a script of outcomes for successive `stream.write` calls (`some e` = the
write fails with message `e`; an exhausted script means writes succeed), and
the server messages successfully written so far, in order. -/
structure Transport where
  inbound : List StreamItem
  writeFaults : List (Option String)
  sent : List ShellServerMessage
deriving DecidableEq

/-- `stream.next()`: pop the next inbound item; `none` is clean stream end. -/
def Transport.next (t : Transport) : Option StreamItem × Transport :=
  match t.inbound with
  | [] => (none, t)
  | item :: rest => (some item, { t with inbound := rest })

/-- `stream.write(&message)`: consult the fault script; on success append the
message to `sent`. -/
def Transport.write (t : Transport) (m : ShellServerMessage) :
    Option SessionError × Transport :=
  match t.writeFaults with
  | some e :: rest => (some (SessionError.msg e), { t with writeFaults := rest })
  | none :: rest =>
      (none, { t with writeFaults := rest, sent := t.sent ++ [m] })
  | [] => (none, { t with sent := t.sent ++ [m] })

/-- The shell provider behind `Box<dyn Shell + Send>` as `steam_shell_io`
uses it: `output` is the sequence of chunks (or read errors) its `read`
will yield, `exit_code` is the value of `exit_code()`, `writeFaults` /
`resizeFaults` script the outcomes of successive `write` / `resize` calls
(exhausted script = success), and `written` / `sizes` record the bytes
written to the shell and the resizes applied. -/
structure ShellModel where
  output : List (Except String (List Nat))
  exit_code : Option Int
  writeFaults : List (Option String)
  resizeFaults : List (Option String)
  written : List Nat
  sizes : List WindowSize

/-- `shell.read(&mut buff)` with a buffer of `bufLen` bytes: yields at most
`bufLen` bytes of the first pending chunk (the remainder stays queued), a
scripted read error, or `Ok(0)` (the empty list) once output is exhausted. -/
def ShellModel.read (s : ShellModel) (bufLen : Nat) :
    Except String (List Nat) × ShellModel :=
  match s.output with
  | [] => (Except.ok [], s)
  | Except.error e :: rest => (Except.error e, { s with output := rest })
  | Except.ok chunk :: rest =>
      (Except.ok (chunk.take bufLen),
        { s with
          output :=
            if chunk.drop bufLen = [] then rest
            else Except.ok (chunk.drop bufLen) :: rest })

/-- `shell.write(payload)`: consult the fault script; on success the payload
is appended to the shell's input history. -/
def ShellModel.write (s : ShellModel) (payload : List Nat) :
    Option String × ShellModel :=
  match s.writeFaults with
  | some e :: rest => (some e, { s with writeFaults := rest })
  | none :: rest =>
      (none, { s with writeFaults := rest, written := s.written ++ payload })
  | [] => (none, { s with written := s.written ++ payload })

/-- `shell.resize(size)`: consult the fault script; on success record the
size. -/
def ShellModel.resize (s : ShellModel) (size : WindowSize) :
    Option String × ShellModel :=
  match s.resizeFaults with
  | some e :: rest => (some e, { s with resizeFaults := rest })
  | none :: rest =>
      (none, { s with resizeFaults := rest, sizes := s.sizes ++ [size] })
  | [] => (none, { s with sizes := s.sizes ++ [size] })

/-- Which provider `start_shell` constructed, with the `term` and `size` it
was given (`PtyShell::new(request.term.as_ref(), None, request.size.clone())`
or `FallbackShell::new(request.term.as_ref(), request.size.clone())`). -/
inductive ShellChoice where
  | PtyShell (term : String) (size : WindowSize)
  | FallbackShell (term : String) (size : WindowSize)
deriving DecidableEq

/-- The authentication window of `wait_for_key` (milliseconds). -/
def authTimeoutMillis : Nat := 3000

/-- The linger delay on the success path of `run` (milliseconds). -/
def lingerMillis : Nat := 500

/-- `ShellServer::wait_for_key`. `timedOut = true` means the 3000 ms
`time::delay_for` branch of the `tokio::select!` won (no message arrived in
the window); otherwise the next stream item is consumed. On `Key(k)` the key
is compared with `==` to the expected key: equal emits `KeyAccepted` and
returns `Ok(())`; unequal emits `KeyRejected` and then returns the
"client key rejected" error. The `?` on each write propagates a write
failure first. -/
def wait_for_key (timedOut : Bool) (key : String) (t : Transport) :
    Except SessionError Unit × Transport :=
  if timedOut then
    (Except.error (SessionError.msg "timed out while waiting for key"), t)
  else
    match Transport.next t with
    | (none, t) =>
        (Except.error (SessionError.msg "client did not sent key"), t)
    | (some (StreamItem.invalid e), t) =>
        (Except.error
          (SessionError.context "received invalid message from client"
            (SessionError.msg e)), t)
    | (some (StreamItem.ok (ShellClientMessage.Key k)), t) =>
        if k = key then
          match Transport.write t ShellServerMessage.KeyAccepted with
          | (some e, t) => (Except.error e, t)
          | (none, t) => (Except.ok (), t)
        else
          match Transport.write t ShellServerMessage.KeyRejected with
          | (some e, t) => (Except.error e, t)
          | (none, t) =>
              (Except.error (SessionError.msg "client key rejected"), t)
    | (some (StreamItem.ok m), t) =>
        (Except.error
          (SessionError.msg
            ("received unexpected message from client: " ++ describeClient m)),
          t)

/-- `ShellServer::start_shell`. `timedOut` is the 3000 ms race as in
`wait_for_key`. On `StartShell(request)` the provider is constructed:
`ptyOk` says whether `PtyShell::new(request.term.as_ref(), None,
request.size.clone())` succeeded (its body is platform code outside the
embedded source); on failure the failure is logged and
`FallbackShell::new(request.term.as_ref(), request.size.clone())` — which
cannot fail — is used instead, so construction failure never produces an
error. -/
def start_shell (timedOut : Bool) (ptyOk : Bool) (t : Transport) :
    Except SessionError ShellChoice × Transport :=
  if timedOut then
    (Except.error (SessionError.msg "timed out while waiting for shell request"), t)
  else
    match Transport.next t with
    | (none, t) =>
        (Except.error (SessionError.msg "client did not send start shell message"), t)
    | (some (StreamItem.invalid e), t) =>
        (Except.error
          (SessionError.context "received invalid message from client"
            (SessionError.msg e)), t)
    | (some (StreamItem.ok (ShellClientMessage.StartShell request)), t) =>
        if ptyOk then
          (Except.ok (ShellChoice.PtyShell request.term request.size), t)
        else
          (Except.ok (ShellChoice.FallbackShell request.term request.size), t)
    | (some (StreamItem.ok m), t) =>
        (Except.error
          (SessionError.msg
            ("received unexpected message from client: " ++ describeClient m)),
          t)

/-- Which of the two racing futures of one `tokio::select!` iteration of the
streaming loop resolved first: `shell.read(&mut buff)` or `stream.next()`. -/
inductive Branch where
  | fromShell
  | fromClient
deriving DecidableEq

/-- How the streaming loop ended. `exitSent code` is the `Ok(0)` branch:
`Exited(code)` was written and the loop broke. `clientEnded` is the `None`
branch: clean stream end, loop broke without `Exited`. `failed e` is any
`return Err(..)` path. `crashed` is the panic of
`shell.exit_code().unwrap()` when no exit code is available. `ranOut` means
the schedule was exhausted while the loop was still running. -/
inductive LoopOutcome where
  | exitSent (code : Int)
  | clientEnded
  | failed (e : SessionError)
  | crashed
  | ranOut
deriving DecidableEq

/-- `ShellServer::steam_shell_io`: the streaming relay loop with its fixed
1024-byte read buffer (`let mut buff = [0u8; 1024]`). Each schedule entry
resolves one iteration's race; the loop runs until a `break` (shell exit
after writing `Exited`, or clean client stream end) or a fatal `return`. -/
def steam_shell_io :
    List Branch → ShellModel → Transport → LoopOutcome × ShellModel × Transport
  | [], shell, t => (LoopOutcome.ranOut, shell, t)
  | Branch.fromShell :: sched, shell, t =>
      match ShellModel.read shell 1024 with
      | (Except.error e, shell) => (LoopOutcome.failed (SessionError.msg e), shell, t)
      | (Except.ok [], shell) =>
          match shell.exit_code with
          | none => (LoopOutcome.crashed, shell, t)
          | some code =>
              match Transport.write t (ShellServerMessage.Exited code) with
              | (some e, t) => (LoopOutcome.failed e, shell, t)
              | (none, t) => (LoopOutcome.exitSent code, shell, t)
      | (Except.ok (b :: bs), shell) =>
          match Transport.write t (ShellServerMessage.Stdout (b :: bs)) with
          | (some e, t) => (LoopOutcome.failed e, shell, t)
          | (none, t) => steam_shell_io sched shell t
  | Branch.fromClient :: sched, shell, t =>
      match Transport.next t with
      | (none, t) => (LoopOutcome.clientEnded, shell, t)
      | (some (StreamItem.invalid e), t) =>
          (LoopOutcome.failed
            (SessionError.context "received invalid message from shell client"
              (SessionError.msg e)), shell, t)
      | (some (StreamItem.ok (ShellClientMessage.Stdin payload)), t) =>
          match ShellModel.write shell payload with
          | (some e, shell) => (LoopOutcome.failed (SessionError.msg e), shell, t)
          | (none, shell) => steam_shell_io sched shell t
      | (some (StreamItem.ok (ShellClientMessage.Resize size)), t) =>
          match ShellModel.resize shell size with
          | (some e, shell) => (LoopOutcome.failed (SessionError.msg e), shell, t)
          | (none, shell) => steam_shell_io sched shell t
      | (some (StreamItem.ok m), t) =>
          (LoopOutcome.failed
            (SessionError.msg
              ("received unexpected message from shell client " ++ describeClient m)),
            shell, t)

/-- Outcome of `ShellServer::run`. `okShellExited` / `okClientEnded` are the
`Ok(())` return, after the linger, distinguished by which `break` ended the
streaming loop; `fatal` is any `Err` return; `crashed` is the
`exit_code().unwrap()` panic; `ranOut` means the loop schedule was
exhausted mid-loop. -/
inductive RunOutcome where
  | okShellExited (code : Int)
  | okClientEnded
  | fatal (e : SessionError)
  | crashed
  | ranOut
deriving DecidableEq

/-- What a whole `run` produced: its outcome, every server message written
to the stream in order, and whether the 500 ms linger was reached
(it is reached exactly on the `Ok(())` path). -/
structure RunResult where
  outcome : RunOutcome
  sent : List ShellServerMessage
  lingered : Bool
deriving DecidableEq

/-- `ShellServer::run`: `wait_for_key`, then `start_shell`, then
`steam_shell_io` (each `?` aborts the run on error), then the 500 ms
linger, then `Ok(())`. The provider constructed by `start_shell` behaves as
the `shell : ShellModel` script; `authTimedOut` / `shellTimedOut` resolve
the two stage-timeout races and `sched` the streaming-loop races. -/
def run (key : String) (authTimedOut shellTimedOut ptyOk : Bool)
    (shell : ShellModel) (sched : List Branch) (t : Transport) : RunResult :=
  match wait_for_key authTimedOut key t with
  | (Except.error e, t) =>
      { outcome := RunOutcome.fatal e, sent := t.sent, lingered := false }
  | (Except.ok _, t) =>
      match start_shell shellTimedOut ptyOk t with
      | (Except.error e, t) =>
          { outcome := RunOutcome.fatal e, sent := t.sent, lingered := false }
      | (Except.ok _choice, t) =>
          match steam_shell_io sched shell t with
          | (LoopOutcome.exitSent code, _, t) =>
              { outcome := RunOutcome.okShellExited code, sent := t.sent,
                lingered := true }
          | (LoopOutcome.clientEnded, _, t) =>
              { outcome := RunOutcome.okClientEnded, sent := t.sent,
                lingered := true }
          | (LoopOutcome.failed e, _, t) =>
              { outcome := RunOutcome.fatal e, sent := t.sent, lingered := false }
          | (LoopOutcome.crashed, _, t) =>
              { outcome := RunOutcome.crashed, sent := t.sent, lingered := false }
          | (LoopOutcome.ranOut, _, t) =>
              { outcome := RunOutcome.ranOut, sent := t.sent, lingered := false }

/-- Whether a server message is an `Exited`. -/
def isExited : ShellServerMessage → Bool
  | ShellServerMessage.Exited _ => true
  | _ => false

/-- How many `Exited` messages a list of server messages holds. -/
def countExited (l : List ShellServerMessage) : Nat := l.countP isExited

/-- The inbound stream items the streaming loop does not accept: a decode
failure, or any decoded message other than `Stdin` / `Resize` (a repeated
`Key` / `StartShell`, or `Error`). -/
def unexpectedDuringStreaming : StreamItem → Prop
  | StreamItem.invalid _ => True
  | StreamItem.ok (ShellClientMessage.Stdin _) => False
  | StreamItem.ok (ShellClientMessage.Resize _) => False
  | StreamItem.ok _ => True

/-- A sample client script: the correct key, then a shell request — the
prefix of the happy-path scenario of the module's tests. -/
def sampleInbound : List StreamItem :=
  [StreamItem.ok (ShellClientMessage.Key "CorrectKey"),
   StreamItem.ok (ShellClientMessage.StartShell ⟨"TERM", ⟨50, 50⟩⟩)]

/-- A sample transport: the sample script, a fault-free write path, nothing
sent yet. -/
def sampleTransport : Transport := ⟨sampleInbound, [], []⟩

/-- A sample provider: one two-byte output chunk, exit code 0, fault-free. -/
def sampleShell : ShellModel := ⟨[Except.ok [104, 105]], some 0, [], [], [], []⟩

/-! Helper lemmas about the transport and provider primitives. -/

lemma Transport.write_fail_sent {t : Transport} {m : ShellServerMessage}
    {e : SessionError} {t' : Transport}
    (h : Transport.write t m = (some e, t')) : t'.sent = t.sent := by
  unfold Transport.write at h
  rcases hw : t.writeFaults with _ | ⟨f, rest⟩
  · rw [hw] at h; simp at h
  · cases f with
    | none => rw [hw] at h; simp at h
    | some s => rw [hw] at h; simp at h; rw [← h.2]

lemma Transport.write_ok_sent {t : Transport} {m : ShellServerMessage}
    {t' : Transport}
    (h : Transport.write t m = (none, t')) : t'.sent = t.sent ++ [m] := by
  unfold Transport.write at h
  rcases hw : t.writeFaults with _ | ⟨f, rest⟩
  · rw [hw] at h; simp at h; rw [← h]
  · cases f with
    | none => rw [hw] at h; simp at h; rw [← h]
    | some s => rw [hw] at h; simp at h

lemma Transport.next_sent (t : Transport) :
    (Transport.next t).2.sent = t.sent := by
  unfold Transport.next
  rcases t.inbound with _ | ⟨item, rest⟩ <;> simp

lemma Transport.next_cons {t : Transport} {item : StreamItem}
    {rest : List StreamItem} (h : t.inbound = item :: rest) :
    Transport.next t = (some item, { t with inbound := rest }) := by
  unfold Transport.next
  rw [h]

lemma ShellModel.read_exit_code (s : ShellModel) (n : Nat) :
    (ShellModel.read s n).2.exit_code = s.exit_code := by
  unfold ShellModel.read
  rcases s.output with _ | ⟨_ | chunk, rest⟩ <;> simp

lemma ShellModel.write_exit_code (s : ShellModel) (p : List Nat) :
    (ShellModel.write s p).2.exit_code = s.exit_code := by
  unfold ShellModel.write
  rcases s.writeFaults with _ | ⟨_ | f, rest⟩ <;> simp

lemma ShellModel.resize_exit_code (s : ShellModel) (z : WindowSize) :
    (ShellModel.resize s z).2.exit_code = s.exit_code := by
  unfold ShellModel.resize
  rcases s.resizeFaults with _ | ⟨_ | f, rest⟩ <;> simp

lemma ShellModel.read_length_le {s : ShellModel} {n : Nat} {r : List Nat}
    {s' : ShellModel} (h : ShellModel.read s n = (Except.ok r, s')) :
    r.length ≤ n := by
  unfold ShellModel.read at h
  rcases ho : s.output with _ | ⟨c, rest⟩
  · rw [ho] at h; simp_all
  · cases c with
    | error e => rw [ho] at h; simp at h
    | ok chunk =>
        rw [ho] at h
        simp only [Prod.mk.injEq, Except.ok.injEq] at h
        obtain ⟨h1, h2⟩ := h
        subst h1
        exact List.length_take_le n chunk

lemma wait_for_key_sent_shape (a : Bool) (k : String) (t : Transport) :
    ∃ new, (wait_for_key a k t).2.sent = t.sent ++ new ∧
      (new = [] ∨ new = [ShellServerMessage.KeyAccepted] ∨
        new = [ShellServerMessage.KeyRejected]) := by
  cases a with
  | true => exact ⟨[], by simp [wait_for_key], Or.inl rfl⟩
  | false =>
    rcases hin : t.inbound with _ | ⟨item, rest⟩
    · exact ⟨[], by simp [wait_for_key, Transport.next, hin], Or.inl rfl⟩
    · cases item with
      | invalid e =>
          exact ⟨[], by simp [wait_for_key, Transport.next, hin], Or.inl rfl⟩
      | ok m =>
          cases m with
          | Key k2 =>
              by_cases hk : k2 = k
              · rcases hw : t.writeFaults with _ | ⟨f, wf⟩
                · exact ⟨[ShellServerMessage.KeyAccepted],
                    by simp [wait_for_key, Transport.next, Transport.write,
                      hin, hk, hw], Or.inr (Or.inl rfl)⟩
                · cases f with
                  | none => exact ⟨[ShellServerMessage.KeyAccepted],
                      by simp [wait_for_key, Transport.next, Transport.write,
                        hin, hk, hw], Or.inr (Or.inl rfl)⟩
                  | some s => exact ⟨[],
                      by simp [wait_for_key, Transport.next, Transport.write,
                        hin, hk, hw], Or.inl rfl⟩
              · rcases hw : t.writeFaults with _ | ⟨f, wf⟩
                · exact ⟨[ShellServerMessage.KeyRejected],
                    by simp [wait_for_key, Transport.next, Transport.write,
                      hin, hk, hw], Or.inr (Or.inr rfl)⟩
                · cases f with
                  | none => exact ⟨[ShellServerMessage.KeyRejected],
                      by simp [wait_for_key, Transport.next, Transport.write,
                        hin, hk, hw], Or.inr (Or.inr rfl)⟩
                  | some s => exact ⟨[],
                      by simp [wait_for_key, Transport.next, Transport.write,
                        hin, hk, hw], Or.inl rfl⟩
          | StartShell p =>
              exact ⟨[], by simp [wait_for_key, Transport.next, hin], Or.inl rfl⟩
          | Stdin p =>
              exact ⟨[], by simp [wait_for_key, Transport.next, hin], Or.inl rfl⟩
          | Resize z =>
              exact ⟨[], by simp [wait_for_key, Transport.next, hin], Or.inl rfl⟩
          | Error e =>
              exact ⟨[], by simp [wait_for_key, Transport.next, hin], Or.inl rfl⟩

lemma start_shell_sent (a p : Bool) (t : Transport) :
    (start_shell a p t).2.sent = t.sent := by
  cases a with
  | true => simp [start_shell]
  | false =>
    rcases hin : t.inbound with _ | ⟨item, rest⟩
    · simp [start_shell, Transport.next, hin]
    · cases item with
      | invalid e => simp [start_shell, Transport.next, hin]
      | ok m =>
          cases m with
          | StartShell r => cases p <;> simp [start_shell, Transport.next, hin]
          | Key k => simp [start_shell, Transport.next, hin]
          | Stdin q => simp [start_shell, Transport.next, hin]
          | Resize z => simp [start_shell, Transport.next, hin]
          | Error e => simp [start_shell, Transport.next, hin]

/-- Shape of everything the streaming loop writes: a (possibly empty) list of
`Stdout` chunks, each of 1 to 1024 bytes, followed by exactly one `Exited`
precisely when the loop ended through the shell-exit branch. -/
lemma steam_shell_io_sent_shape :
    ∀ (sched : List Branch) (shell : ShellModel) (t : Transport),
      ∃ outs : List (List Nat),
        (∀ b ∈ outs, 1 ≤ b.length ∧ b.length ≤ 1024) ∧
        ((∃ c, (steam_shell_io sched shell t).1 = LoopOutcome.exitSent c ∧
            (steam_shell_io sched shell t).2.2.sent
              = t.sent ++ outs.map ShellServerMessage.Stdout
                  ++ [ShellServerMessage.Exited c]) ∨
         ((∀ c, (steam_shell_io sched shell t).1 ≠ LoopOutcome.exitSent c) ∧
            (steam_shell_io sched shell t).2.2.sent
              = t.sent ++ outs.map ShellServerMessage.Stdout)) := by
  intro sched
  induction sched with
  | nil =>
      intro shell t
      exact ⟨[], by simp,
        Or.inr ⟨by simp [steam_shell_io], by simp [steam_shell_io]⟩⟩
  | cons br sched ih =>
      intro shell t
      cases br with
      | fromShell =>
          rcases hrd : ShellModel.read shell 1024 with ⟨res, shell2⟩
          cases res with
          | error e =>
              exact ⟨[], by simp,
                Or.inr ⟨by simp [steam_shell_io, hrd],
                  by simp [steam_shell_io, hrd]⟩⟩
          | ok chunk =>
              cases chunk with
              | nil =>
                  cases hec : shell2.exit_code with
                  | none =>
                      exact ⟨[], by simp,
                        Or.inr ⟨by simp [steam_shell_io, hrd, hec],
                          by simp [steam_shell_io, hrd, hec]⟩⟩
                  | some code =>
                      rcases hwr : Transport.write t (ShellServerMessage.Exited code)
                        with ⟨werr, t2⟩
                      cases werr with
                      | none =>
                          refine ⟨[], by simp, Or.inl ⟨code, ?_, ?_⟩⟩
                          · simp [steam_shell_io, hrd, hec, hwr]
                          · simp only [steam_shell_io, hrd, hec, hwr]
                            simpa using Transport.write_ok_sent hwr
                      | some e =>
                          refine ⟨[], by simp, Or.inr ⟨?_, ?_⟩⟩
                          · simp [steam_shell_io, hrd, hec, hwr]
                          · simp only [steam_shell_io, hrd, hec, hwr]
                            simpa using Transport.write_fail_sent hwr
              | cons b bs =>
                  rcases hwr : Transport.write t (ShellServerMessage.Stdout (b :: bs))
                    with ⟨werr, t2⟩
                  cases werr with
                  | some e =>
                      refine ⟨[], by simp, Or.inr ⟨?_, ?_⟩⟩
                      · simp [steam_shell_io, hrd, hwr]
                      · simp only [steam_shell_io, hrd, hwr]
                        simpa using Transport.write_fail_sent hwr
                  | none =>
                      obtain ⟨outs, hbound, hshape⟩ := ih shell2 t2
                      have hlen : (b :: bs).length ≤ 1024 :=
                        ShellModel.read_length_le hrd
                      have ht2 : t2.sent
                          = t.sent ++ [ShellServerMessage.Stdout (b :: bs)] :=
                        Transport.write_ok_sent hwr
                      have hred : steam_shell_io (Branch.fromShell :: sched) shell t
                          = steam_shell_io sched shell2 t2 := by
                        simp [steam_shell_io, hrd, hwr]
                      refine ⟨(b :: bs) :: outs, ?_, ?_⟩
                      · intro x hx
                        rcases List.mem_cons.mp hx with hx | hx
                        · subst hx
                          exact ⟨by simp, hlen⟩
                        · exact hbound x hx
                      · rw [hred]
                        rcases hshape with ⟨c, hc1, hc2⟩ | ⟨hne, hc2⟩
                        · exact Or.inl ⟨c, hc1, by rw [hc2, ht2]; simp⟩
                        · exact Or.inr ⟨hne, by rw [hc2, ht2]; simp⟩
      | fromClient =>
          rcases hin : t.inbound with _ | ⟨item, rest⟩
          · exact ⟨[], by simp,
              Or.inr ⟨by simp [steam_shell_io, Transport.next, hin],
                by simp [steam_shell_io, Transport.next, hin]⟩⟩
          · cases item with
            | invalid e =>
                exact ⟨[], by simp,
                  Or.inr ⟨by simp [steam_shell_io, Transport.next, hin],
                    by simp [steam_shell_io, Transport.next, hin]⟩⟩
            | ok m =>
                cases m with
                | Stdin payload =>
                    rcases hsw : ShellModel.write shell payload with ⟨werr, shell2⟩
                    cases werr with
                    | some e =>
                        exact ⟨[], by simp,
                          Or.inr ⟨by simp [steam_shell_io, Transport.next, hin, hsw],
                            by simp [steam_shell_io, Transport.next, hin, hsw]⟩⟩
                    | none =>
                        obtain ⟨outs, hbound, hshape⟩ :=
                          ih shell2 { t with inbound := rest }
                        have hred : steam_shell_io (Branch.fromClient :: sched) shell t
                            = steam_shell_io sched shell2 { t with inbound := rest } := by
                          simp [steam_shell_io, Transport.next, hin, hsw]
                        refine ⟨outs, hbound, ?_⟩
                        rw [hred]
                        rcases hshape with ⟨c, hc1, hc2⟩ | ⟨hne, hc2⟩
                        · exact Or.inl ⟨c, hc1, by rw [hc2]⟩
                        · exact Or.inr ⟨hne, by rw [hc2]⟩
                | Resize size =>
                    rcases hsz : ShellModel.resize shell size with ⟨werr, shell2⟩
                    cases werr with
                    | some e =>
                        exact ⟨[], by simp,
                          Or.inr ⟨by simp [steam_shell_io, Transport.next, hin, hsz],
                            by simp [steam_shell_io, Transport.next, hin, hsz]⟩⟩
                    | none =>
                        obtain ⟨outs, hbound, hshape⟩ :=
                          ih shell2 { t with inbound := rest }
                        have hred : steam_shell_io (Branch.fromClient :: sched) shell t
                            = steam_shell_io sched shell2 { t with inbound := rest } := by
                          simp [steam_shell_io, Transport.next, hin, hsz]
                        refine ⟨outs, hbound, ?_⟩
                        rw [hred]
                        rcases hshape with ⟨c, hc1, hc2⟩ | ⟨hne, hc2⟩
                        · exact Or.inl ⟨c, hc1, by rw [hc2]⟩
                        · exact Or.inr ⟨hne, by rw [hc2]⟩
                | Key k =>
                    exact ⟨[], by simp,
                      Or.inr ⟨by simp [steam_shell_io, Transport.next, hin],
                        by simp [steam_shell_io, Transport.next, hin]⟩⟩
                | StartShell p =>
                    exact ⟨[], by simp,
                      Or.inr ⟨by simp [steam_shell_io, Transport.next, hin],
                        by simp [steam_shell_io, Transport.next, hin]⟩⟩
                | Error e =>
                    exact ⟨[], by simp,
                      Or.inr ⟨by simp [steam_shell_io, Transport.next, hin],
                        by simp [steam_shell_io, Transport.next, hin]⟩⟩

/-- The loop's provider operations never change `exit_code`, so the code in a
final `Exited` is the provider's exit code. -/
lemma steam_shell_io_exit_code :
    ∀ (sched : List Branch) (shell : ShellModel) (t : Transport) (c : Int),
      (steam_shell_io sched shell t).1 = LoopOutcome.exitSent c →
      shell.exit_code = some c := by
  intro sched
  induction sched with
  | nil => intro shell t c h; simp [steam_shell_io] at h
  | cons br sched ih =>
      intro shell t c h
      cases br with
      | fromShell =>
          rcases hrd : ShellModel.read shell 1024 with ⟨res, shell2⟩
          have hpres : shell2.exit_code = shell.exit_code := by
            have := ShellModel.read_exit_code shell 1024
            rw [hrd] at this
            exact this
          cases res with
          | error e => simp [steam_shell_io, hrd] at h
          | ok chunk =>
              cases chunk with
              | nil =>
                  cases hec : shell2.exit_code with
                  | none => simp [steam_shell_io, hrd, hec] at h
                  | some code =>
                      rcases hwr : Transport.write t (ShellServerMessage.Exited code)
                        with ⟨werr, t2⟩
                      cases werr with
                      | some e => simp [steam_shell_io, hrd, hec, hwr] at h
                      | none =>
                          simp [steam_shell_io, hrd, hec, hwr] at h
                          rw [← hpres, hec, h]
              | cons b bs =>
                  rcases hwr : Transport.write t (ShellServerMessage.Stdout (b :: bs))
                    with ⟨werr, t2⟩
                  cases werr with
                  | some e => simp [steam_shell_io, hrd, hwr] at h
                  | none =>
                      have hred : steam_shell_io (Branch.fromShell :: sched) shell t
                          = steam_shell_io sched shell2 t2 := by
                        simp [steam_shell_io, hrd, hwr]
                      rw [hred] at h
                      rw [← hpres]
                      exact ih shell2 t2 c h
      | fromClient =>
          rcases hin : t.inbound with _ | ⟨item, rest⟩
          · simp [steam_shell_io, Transport.next, hin] at h
          · cases item with
            | invalid e => simp [steam_shell_io, Transport.next, hin] at h
            | ok m =>
                cases m with
                | Stdin payload =>
                    rcases hsw : ShellModel.write shell payload with ⟨werr, shell2⟩
                    have hpres : shell2.exit_code = shell.exit_code := by
                      have := ShellModel.write_exit_code shell payload
                      rw [hsw] at this
                      exact this
                    cases werr with
                    | some e => simp [steam_shell_io, Transport.next, hin, hsw] at h
                    | none =>
                        have hred : steam_shell_io (Branch.fromClient :: sched) shell t
                            = steam_shell_io sched shell2 { t with inbound := rest } := by
                          simp [steam_shell_io, Transport.next, hin, hsw]
                        rw [hred] at h
                        rw [← hpres]
                        exact ih shell2 { t with inbound := rest } c h
                | Resize size =>
                    rcases hsz : ShellModel.resize shell size with ⟨werr, shell2⟩
                    have hpres : shell2.exit_code = shell.exit_code := by
                      have := ShellModel.resize_exit_code shell size
                      rw [hsz] at this
                      exact this
                    cases werr with
                    | some e => simp [steam_shell_io, Transport.next, hin, hsz] at h
                    | none =>
                        have hred : steam_shell_io (Branch.fromClient :: sched) shell t
                            = steam_shell_io sched shell2 { t with inbound := rest } := by
                          simp [steam_shell_io, Transport.next, hin, hsz]
                        rw [hred] at h
                        rw [← hpres]
                        exact ih shell2 { t with inbound := rest } c h
                | Key k => simp [steam_shell_io, Transport.next, hin] at h
                | StartShell p => simp [steam_shell_io, Transport.next, hin] at h
                | Error e => simp [steam_shell_io, Transport.next, hin] at h

/-- If the provider has an exit code, the `exit_code().unwrap()` on the
zero-byte-read path cannot panic. -/
lemma steam_shell_io_no_crash :
    ∀ (sched : List Branch) (shell : ShellModel) (t : Transport),
      shell.exit_code.isSome →
      (steam_shell_io sched shell t).1 ≠ LoopOutcome.crashed := by
  intro sched
  induction sched with
  | nil => intro shell t _ h; simp [steam_shell_io] at h
  | cons br sched ih =>
      intro shell t hsome h
      cases br with
      | fromShell =>
          rcases hrd : ShellModel.read shell 1024 with ⟨res, shell2⟩
          have hpres : shell2.exit_code = shell.exit_code := by
            have := ShellModel.read_exit_code shell 1024
            rw [hrd] at this
            exact this
          cases res with
          | error e => simp [steam_shell_io, hrd] at h
          | ok chunk =>
              cases chunk with
              | nil =>
                  cases hec : shell2.exit_code with
                  | none => rw [hpres] at hec; rw [hec] at hsome; simp at hsome
                  | some code =>
                      rcases hwr : Transport.write t (ShellServerMessage.Exited code)
                        with ⟨werr, t2⟩
                      cases werr with
                      | some e => simp [steam_shell_io, hrd, hec, hwr] at h
                      | none => simp [steam_shell_io, hrd, hec, hwr] at h
              | cons b bs =>
                  rcases hwr : Transport.write t (ShellServerMessage.Stdout (b :: bs))
                    with ⟨werr, t2⟩
                  cases werr with
                  | some e => simp [steam_shell_io, hrd, hwr] at h
                  | none =>
                      have hred : steam_shell_io (Branch.fromShell :: sched) shell t
                          = steam_shell_io sched shell2 t2 := by
                        simp [steam_shell_io, hrd, hwr]
                      rw [hred] at h
                      exact ih shell2 t2 (by rw [hpres]; exact hsome) h
      | fromClient =>
          rcases hin : t.inbound with _ | ⟨item, rest⟩
          · simp [steam_shell_io, Transport.next, hin] at h
          · cases item with
            | invalid e => simp [steam_shell_io, Transport.next, hin] at h
            | ok m =>
                cases m with
                | Stdin payload =>
                    rcases hsw : ShellModel.write shell payload with ⟨werr, shell2⟩
                    have hpres : shell2.exit_code = shell.exit_code := by
                      have := ShellModel.write_exit_code shell payload
                      rw [hsw] at this
                      exact this
                    cases werr with
                    | some e => simp [steam_shell_io, Transport.next, hin, hsw] at h
                    | none =>
                        have hred : steam_shell_io (Branch.fromClient :: sched) shell t
                            = steam_shell_io sched shell2 { t with inbound := rest } := by
                          simp [steam_shell_io, Transport.next, hin, hsw]
                        rw [hred] at h
                        exact ih shell2 { t with inbound := rest }
                          (by rw [hpres]; exact hsome) h
                | Resize size =>
                    rcases hsz : ShellModel.resize shell size with ⟨werr, shell2⟩
                    have hpres : shell2.exit_code = shell.exit_code := by
                      have := ShellModel.resize_exit_code shell size
                      rw [hsz] at this
                      exact this
                    cases werr with
                    | some e => simp [steam_shell_io, Transport.next, hin, hsz] at h
                    | none =>
                        have hred : steam_shell_io (Branch.fromClient :: sched) shell t
                            = steam_shell_io sched shell2 { t with inbound := rest } := by
                          simp [steam_shell_io, Transport.next, hin, hsz]
                        rw [hred] at h
                        exact ih shell2 { t with inbound := rest }
                          (by rw [hpres]; exact hsome) h
                | Key k => simp [steam_shell_io, Transport.next, hin] at h
                | StartShell p => simp [steam_shell_io, Transport.next, hin] at h
                | Error e => simp [steam_shell_io, Transport.next, hin] at h

lemma countExited_append (l1 l2 : List ShellServerMessage) :
    countExited (l1 ++ l2) = countExited l1 + countExited l2 :=
  List.countP_append isExited l1 l2

lemma countExited_stdouts (outs : List (List Nat)) :
    countExited (outs.map ShellServerMessage.Stdout) = 0 := by
  induction outs with
  | nil => rfl
  | cons b bs ih =>
      simp [countExited, List.countP_cons, isExited]

lemma countExited_auth {new : List ShellServerMessage}
    (h : new = [] ∨ new = [ShellServerMessage.KeyAccepted] ∨
      new = [ShellServerMessage.KeyRejected]) : countExited new = 0 := by
  rcases h with h | h | h <;> subst h <;> rfl

lemma exited_not_mem_stdouts (c : Int) (outs : List (List Nat)) :
    ShellServerMessage.Exited c ∉ outs.map ShellServerMessage.Stdout := by
  simp

lemma exited_not_mem_auth {new : List ShellServerMessage} (c : Int)
    (h : new = [] ∨ new = [ShellServerMessage.KeyAccepted] ∨
      new = [ShellServerMessage.KeyRejected]) :
    ShellServerMessage.Exited c ∉ new := by
  rcases h with h | h | h <;> subst h <;> simp

/-- C1: for an expected key `k1` and a received first message `Key(k2)` (on a
transport whose writes succeed): if `k2 = k1` the session emits `KeyAccepted`
and `wait_for_key` returns success, so the run proceeds to negotiation; if
`k2 ≠ k1` the session emits `KeyRejected` and then the whole run fails with
the "client key rejected" error — `wait_for_key` consumes exactly the one
message and returns, offering no retry. -/
theorem claim1 (k1 k2 : String) (t : Transport) (rest : List StreamItem)
    (hin : t.inbound = StreamItem.ok (ShellClientMessage.Key k2) :: rest)
    (hwf : t.writeFaults = []) :
    (k2 = k1 →
      wait_for_key false k1 t
        = (Except.ok (),
           { t with
               inbound := rest
               sent := t.sent ++ [ShellServerMessage.KeyAccepted] })) ∧
    (k2 ≠ k1 →
      wait_for_key false k1 t
        = (Except.error (SessionError.msg "client key rejected"),
           { t with
               inbound := rest
               sent := t.sent ++ [ShellServerMessage.KeyRejected] })) ∧
    (∀ (st pty : Bool) (shell : ShellModel) (sched : List Branch), k2 ≠ k1 →
      (run k1 false st pty shell sched t).outcome
        = RunOutcome.fatal (SessionError.msg "client key rejected")) := by
  have hrej : k2 ≠ k1 →
      wait_for_key false k1 t
        = (Except.error (SessionError.msg "client key rejected"),
           { t with
               inbound := rest
               sent := t.sent ++ [ShellServerMessage.KeyRejected] }) := by
    intro hk
    simp [wait_for_key, Transport.next, Transport.write, hin, hwf, hk]
  refine ⟨?_, hrej, ?_⟩
  · intro hk
    simp [wait_for_key, Transport.next, Transport.write, hin, hwf, hk]
  · intro st pty shell sched hk
    simp [run, hrej hk]

/-- Witness for C1 at the tests' concrete keys. -/
theorem claim1_witness :
    wait_for_key false "CorrectKey"
        ⟨[StreamItem.ok (ShellClientMessage.Key "CorrectKey")], [], []⟩
      = (Except.ok (), ⟨[], [], [ShellServerMessage.KeyAccepted]⟩) ∧
    wait_for_key false "CorrectKey"
        ⟨[StreamItem.ok (ShellClientMessage.Key "Invalid")], [], []⟩
      = (Except.error (SessionError.msg "client key rejected"),
         ⟨[], [], [ShellServerMessage.KeyRejected]⟩) :=
  ⟨(claim1 "CorrectKey" "CorrectKey" _ [] rfl rfl).1 rfl,
   (claim1 "CorrectKey" "Invalid" _ [] rfl rfl).2.1 (by decide)⟩

/-- C3: a `StartShell` received during negotiation always yields a provider:
the PTY provider when its construction succeeds, else the Fallback provider
with the same `term` and `size`; and `start_shell` returns an error only on
timeout, clean stream end, decode failure, or an unexpected message kind —
never because provider construction failed. -/
theorem claim3 :
    (∀ (ptyOk : Bool) (t : Transport) (request : StartShellPayload)
        (rest : List StreamItem),
      t.inbound = StreamItem.ok (ShellClientMessage.StartShell request) :: rest →
      start_shell false ptyOk t
        = (Except.ok
            (if ptyOk then ShellChoice.PtyShell request.term request.size
             else ShellChoice.FallbackShell request.term request.size),
           { t with inbound := rest })) ∧
    (∀ (tm ptyOk : Bool) (t : Transport) (e : SessionError),
      (start_shell tm ptyOk t).1 = Except.error e →
      tm = true ∨ t.inbound = [] ∨
      (∃ s rest, t.inbound = StreamItem.invalid s :: rest) ∨
      (∃ m rest, t.inbound = StreamItem.ok m :: rest ∧
        ∀ req, m ≠ ShellClientMessage.StartShell req)) := by
  constructor
  · intro ptyOk t request rest hin
    cases ptyOk <;> simp [start_shell, Transport.next, hin]
  · intro tm ptyOk t e h
    cases tm with
    | true => exact Or.inl rfl
    | false =>
      rcases hin : t.inbound with _ | ⟨item, rest⟩
      · exact Or.inr (Or.inl rfl)
      · cases item with
        | invalid s => exact Or.inr (Or.inr (Or.inl ⟨s, rest, rfl⟩))
        | ok m =>
          cases m with
          | StartShell r =>
              exfalso
              cases ptyOk <;> simp [start_shell, Transport.next, hin] at h
          | Key k =>
              exact Or.inr (Or.inr (Or.inr
                ⟨ShellClientMessage.Key k, rest, rfl, by intro req; simp⟩))
          | Stdin p =>
              exact Or.inr (Or.inr (Or.inr
                ⟨ShellClientMessage.Stdin p, rest, rfl, by intro req; simp⟩))
          | Resize z =>
              exact Or.inr (Or.inr (Or.inr
                ⟨ShellClientMessage.Resize z, rest, rfl, by intro req; simp⟩))
          | Error s =>
              exact Or.inr (Or.inr (Or.inr
                ⟨ShellClientMessage.Error s, rest, rfl, by intro req; simp⟩))

/-- Witness for C3: PTY construction failure yields the Fallback provider
with the same term and size, not an error. -/
theorem claim3_witness :
    start_shell false false
        ⟨[StreamItem.ok (ShellClientMessage.StartShell ⟨"TERM", ⟨50, 50⟩⟩)], [], []⟩
      = (Except.ok (ShellChoice.FallbackShell "TERM" ⟨50, 50⟩), ⟨[], [], []⟩) :=
  claim3.1 false _ ⟨"TERM", ⟨50, 50⟩⟩ [] rfl

/-- C6: if the 3000 ms authentication window elapses with no inbound
message, the run fails with the timeout error and the session has sent no
server message at all. -/
theorem claim6 (key : String) (st pty : Bool) (shell : ShellModel)
    (sched : List Branch) (t : Transport) :
    (run key true st pty shell sched t).outcome
      = RunOutcome.fatal (SessionError.msg "timed out while waiting for key") ∧
    (run key true st pty shell sched t).sent = t.sent := by
  simp [run, wait_for_key]

/-- C9: `run` is deterministic — two runs over equal expected keys, race
resolutions, provider scripts and transports produce identical server
message sequences. -/
theorem claim9 (key : String) (a st pty : Bool) (shell1 shell2 : ShellModel)
    (sched : List Branch) (t1 t2 : Transport)
    (hsh : shell1 = shell2) (ht : t1 = t2) :
    (run key a st pty shell1 sched t1).sent
      = (run key a st pty shell2 sched t2).sent := by
  rw [hsh, ht]

/-- Witness for C9 on the sample scenario. -/
theorem claim9_witness :
    (run "CorrectKey" false false true sampleShell [Branch.fromShell]
        sampleTransport).sent
      = (run "CorrectKey" false false true sampleShell [Branch.fromShell]
          sampleTransport).sent :=
  claim9 "CorrectKey" false false true sampleShell sampleShell
    [Branch.fromShell] sampleTransport sampleTransport rfl rfl

/-- C10: on key mismatch the "client key rejected" error is returned only
when the `KeyRejected` write succeeded; if that write fails, the run fails
with the transport write error instead and `KeyRejected` was never sent. -/
theorem claim10 (k1 k2 : String) (t : Transport) (rest : List StreamItem)
    (hin : t.inbound = StreamItem.ok (ShellClientMessage.Key k2) :: rest)
    (hk : k2 ≠ k1) :
    (∀ e wf, t.writeFaults = some e :: wf →
      (wait_for_key false k1 t).1 = Except.error (SessionError.msg e) ∧
      (wait_for_key false k1 t).2.sent = t.sent) ∧
    (∀ wf, t.writeFaults = none :: wf →
      (wait_for_key false k1 t).1
        = Except.error (SessionError.msg "client key rejected") ∧
      (wait_for_key false k1 t).2.sent
        = t.sent ++ [ShellServerMessage.KeyRejected]) := by
  constructor
  · intro e wf hw
    constructor <;>
      simp [wait_for_key, Transport.next, Transport.write, hin, hk, hw]
  · intro wf hw
    constructor <;>
      simp [wait_for_key, Transport.next, Transport.write, hin, hk, hw]

/-- Witness for C10: a failing `KeyRejected` write surfaces the write error. -/
theorem claim10_witness :
    (wait_for_key false "CorrectKey"
        ⟨[StreamItem.ok (ShellClientMessage.Key "Invalid")],
         [some "tunnel closed"], []⟩).1
      = Except.error (SessionError.msg "tunnel closed") ∧
    (wait_for_key false "CorrectKey"
        ⟨[StreamItem.ok (ShellClientMessage.Key "Invalid")],
         [some "tunnel closed"], []⟩).2.sent = [] :=
  (claim10 "CorrectKey" "Invalid" _ [] rfl (by decide)).1 "tunnel closed" [] rfl

/-- C2: whenever a run ends through the shell-exit branch of the streaming
loop (the provider's read returned 0 bytes and `Exited` was written), the
fresh session has sent exactly one `Exited`, it carries the provider's exit
code, it is the last server message sent, and the run completes successfully
through the linger. -/
theorem claim2 (key : String) (a st pty : Bool) (shell : ShellModel)
    (sched : List Branch) (t : Transport) (c : Int)
    (hfresh : t.sent = [])
    (h : (run key a st pty shell sched t).outcome = RunOutcome.okShellExited c) :
    shell.exit_code = some c ∧
    countExited (run key a st pty shell sched t).sent = 1 ∧
    (run key a st pty shell sched t).sent.getLast?
      = some (ShellServerMessage.Exited c) ∧
    (run key a st pty shell sched t).lingered = true := by
  rcases hwk : wait_for_key a key t with ⟨res1, t1⟩
  cases res1 with
  | error e => simp only [run, hwk] at h; simp at h
  | ok u =>
      rcases hss : start_shell st pty t1 with ⟨res2, t2⟩
      cases res2 with
      | error e => simp only [run, hwk, hss] at h; simp at h
      | ok choice =>
          rcases hio : steam_shell_io sched shell t2 with ⟨o, sh3, t3⟩
          cases o with
          | clientEnded => simp only [run, hwk, hss, hio] at h; simp at h
          | failed e => simp only [run, hwk, hss, hio] at h; simp at h
          | crashed => simp only [run, hwk, hss, hio] at h; simp at h
          | ranOut => simp only [run, hwk, hss, hio] at h; simp at h
          | exitSent code =>
              simp only [run, hwk, hss, hio] at h ⊢
              have hcode : code = c := by simpa using h
              subst hcode
              obtain ⟨new1, hw1, hnew1⟩ := wait_for_key_sent_shape a key t
              rw [hwk] at hw1
              have hw2 := start_shell_sent st pty t1
              rw [hss] at hw2
              obtain ⟨outs, hb, hshape⟩ := steam_shell_io_sent_shape sched shell t2
              rw [hio] at hshape
              rcases hshape with ⟨c', hc1, hc2⟩ | ⟨hne, hc2⟩
              · have hcc : c' = code := by simpa using hc1.symm
                subst hcc
                have hsent : t3.sent
                    = new1 ++ outs.map ShellServerMessage.Stdout
                        ++ [ShellServerMessage.Exited c'] := by
                  rw [hc2, hw2, hw1, hfresh]
                  simp
                refine ⟨?_, ?_, ?_, trivial⟩
                · exact steam_shell_io_exit_code sched shell t2 c' (by rw [hio])
                · rw [hsent, countExited_append, countExited_append,
                    countExited_stdouts, countExited_auth hnew1]
                  simp [countExited, isExited]
                · rw [hsent]
                  exact List.getLast?_concat _
              · exact absurd rfl (hne code)

/-- Witness for C2: the sample scenario exits with code 0 after one Stdout. -/
theorem claim2_witness :
    sampleTransport.sent = ([] : List ShellServerMessage) ∧
    (run "CorrectKey" false false true sampleShell
        [Branch.fromShell, Branch.fromShell] sampleTransport).outcome
      = RunOutcome.okShellExited 0 ∧
    (sampleShell.exit_code = some 0 ∧
     countExited (run "CorrectKey" false false true sampleShell
        [Branch.fromShell, Branch.fromShell] sampleTransport).sent = 1 ∧
     (run "CorrectKey" false false true sampleShell
        [Branch.fromShell, Branch.fromShell] sampleTransport).sent.getLast?
       = some (ShellServerMessage.Exited 0) ∧
     (run "CorrectKey" false false true sampleShell
        [Branch.fromShell, Branch.fromShell] sampleTransport).lingered = true) :=
  ⟨rfl, by decide,
   claim2 "CorrectKey" false false true sampleShell
     [Branch.fromShell, Branch.fromShell] sampleTransport 0 rfl (by decide)⟩

/-- C5: whenever the run ends because the peer stream ended cleanly during
streaming (before provider end-of-output), no `Exited` was ever sent and
the run completes successfully through the linger. -/
theorem claim5 (key : String) (a st pty : Bool) (shell : ShellModel)
    (sched : List Branch) (t : Transport)
    (hfresh : t.sent = [])
    (h : (run key a st pty shell sched t).outcome = RunOutcome.okClientEnded) :
    (∀ c, ShellServerMessage.Exited c ∉ (run key a st pty shell sched t).sent) ∧
    (run key a st pty shell sched t).lingered = true := by
  rcases hwk : wait_for_key a key t with ⟨res1, t1⟩
  cases res1 with
  | error e => simp only [run, hwk] at h; simp at h
  | ok u =>
      rcases hss : start_shell st pty t1 with ⟨res2, t2⟩
      cases res2 with
      | error e => simp only [run, hwk, hss] at h; simp at h
      | ok choice =>
          rcases hio : steam_shell_io sched shell t2 with ⟨o, sh3, t3⟩
          cases o with
          | exitSent code => simp only [run, hwk, hss, hio] at h; simp at h
          | failed e => simp only [run, hwk, hss, hio] at h; simp at h
          | crashed => simp only [run, hwk, hss, hio] at h; simp at h
          | ranOut => simp only [run, hwk, hss, hio] at h; simp at h
          | clientEnded =>
              simp only [run, hwk, hss, hio]
              obtain ⟨new1, hw1, hnew1⟩ := wait_for_key_sent_shape a key t
              rw [hwk] at hw1
              have hw2 := start_shell_sent st pty t1
              rw [hss] at hw2
              obtain ⟨outs, hb, hshape⟩ := steam_shell_io_sent_shape sched shell t2
              rw [hio] at hshape
              rcases hshape with ⟨c', hc1, _⟩ | ⟨_, hc2⟩
              · exact absurd hc1 (by simp)
              · have hsent : t3.sent = new1 ++ outs.map ShellServerMessage.Stdout := by
                  rw [hc2, hw2, hw1, hfresh]
                  simp
                refine ⟨?_, trivial⟩
                intro c hmem
                rw [hsent] at hmem
                rcases List.mem_append.mp hmem with hmem | hmem
                · exact exited_not_mem_auth c hnew1 hmem
                · exact exited_not_mem_stdouts c outs hmem

/-- Witness for C5: the sample scenario with a single client-side loop event
ends through clean stream end. -/
theorem claim5_witness :
    sampleTransport.sent = ([] : List ShellServerMessage) ∧
    (run "CorrectKey" false false true sampleShell
        [Branch.fromClient] sampleTransport).outcome = RunOutcome.okClientEnded ∧
    ((∀ c, ShellServerMessage.Exited c ∉ (run "CorrectKey" false false true
        sampleShell [Branch.fromClient] sampleTransport).sent) ∧
     (run "CorrectKey" false false true sampleShell
        [Branch.fromClient] sampleTransport).lingered = true) :=
  ⟨rfl, by decide,
   claim5 "CorrectKey" false false true sampleShell [Branch.fromClient]
     sampleTransport rfl (by decide)⟩

/-- C7: under the provider contract that `exit_code()` is defined once read
has returned zero bytes, the `unwrap` on the zero-byte-read path never
panics: neither the streaming loop nor a whole run can end in the crashed
state. -/
theorem claim7 (shell : ShellModel) (c : Int)
    (hcode : shell.exit_code = some c) :
    (∀ sched t, (steam_shell_io sched shell t).1 ≠ LoopOutcome.crashed) ∧
    (∀ (key : String) (a st pty : Bool) sched t,
      (run key a st pty shell sched t).outcome ≠ RunOutcome.crashed) := by
  have hsome : shell.exit_code.isSome := by rw [hcode]; rfl
  constructor
  · intro sched t
    exact steam_shell_io_no_crash sched shell t hsome
  · intro key a st pty sched t h
    rcases hwk : wait_for_key a key t with ⟨res1, t1⟩
    cases res1 with
    | error e => simp only [run, hwk] at h; simp at h
    | ok u =>
        rcases hss : start_shell st pty t1 with ⟨res2, t2⟩
        cases res2 with
        | error e => simp only [run, hwk, hss] at h; simp at h
        | ok choice =>
            rcases hio : steam_shell_io sched shell t2 with ⟨o, sh3, t3⟩
            cases o with
            | crashed =>
                exact steam_shell_io_no_crash sched shell t2 hsome (by rw [hio])
            | exitSent code => simp only [run, hwk, hss, hio] at h; simp at h
            | clientEnded => simp only [run, hwk, hss, hio] at h; simp at h
            | failed e => simp only [run, hwk, hss, hio] at h; simp at h
            | ranOut => simp only [run, hwk, hss, hio] at h; simp at h

/-- Witness for C7 on the sample provider. -/
theorem claim7_witness :
    sampleShell.exit_code = some 0 ∧
    (steam_shell_io [Branch.fromShell] sampleShell sampleTransport).1
      ≠ LoopOutcome.crashed :=
  ⟨rfl, (claim7 sampleShell 0 rfl).1 [Branch.fromShell] sampleTransport⟩

/-- C4: an inbound item during streaming that is neither `Stdin`, `Resize`
nor clean stream end (a repeated `Key`/`StartShell`, an `Error` message, or
a decode failure) aborts the loop immediately with an error and no further
message; and any fatal run never sent an `Exited` and skips the linger. -/
theorem claim4 :
    (∀ (sched : List Branch) (shell : ShellModel) (t : Transport) item rest,
      t.inbound = item :: rest → unexpectedDuringStreaming item →
      ∃ e, steam_shell_io (Branch.fromClient :: sched) shell t
            = (LoopOutcome.failed e, shell, { t with inbound := rest })) ∧
    (∀ (key : String) (a st pty : Bool) (shell : ShellModel)
        (sched : List Branch) (t : Transport) (e : SessionError),
      t.sent = [] →
      (run key a st pty shell sched t).outcome = RunOutcome.fatal e →
      (∀ c, ShellServerMessage.Exited c ∉ (run key a st pty shell sched t).sent) ∧
      (run key a st pty shell sched t).lingered = false) := by
  constructor
  · intro sched shell t item rest hin hun
    cases item with
    | invalid s =>
        exact ⟨SessionError.context "received invalid message from shell client"
          (SessionError.msg s),
          by simp [steam_shell_io, Transport.next, hin]⟩
    | ok m =>
        cases m with
        | Stdin p => simp [unexpectedDuringStreaming] at hun
        | Resize z => simp [unexpectedDuringStreaming] at hun
        | Key k =>
            exact ⟨SessionError.msg
              ("received unexpected message from shell client "
                ++ describeClient (ShellClientMessage.Key k)),
              by simp [steam_shell_io, Transport.next, hin]⟩
        | StartShell r =>
            exact ⟨SessionError.msg
              ("received unexpected message from shell client "
                ++ describeClient (ShellClientMessage.StartShell r)),
              by simp [steam_shell_io, Transport.next, hin]⟩
        | Error s =>
            exact ⟨SessionError.msg
              ("received unexpected message from shell client "
                ++ describeClient (ShellClientMessage.Error s)),
              by simp [steam_shell_io, Transport.next, hin]⟩
  · intro key a st pty shell sched t e hfresh h
    rcases hwk : wait_for_key a key t with ⟨res1, t1⟩
    obtain ⟨new1, hw1, hnew1⟩ := wait_for_key_sent_shape a key t
    rw [hwk] at hw1
    cases res1 with
    | error e1 =>
        simp only [run, hwk]
        refine ⟨?_, trivial⟩
        intro c hmem
        rw [hw1, hfresh] at hmem
        simp only [List.nil_append] at hmem
        exact exited_not_mem_auth c hnew1 hmem
    | ok u =>
        rcases hss : start_shell st pty t1 with ⟨res2, t2⟩
        have hw2 := start_shell_sent st pty t1
        rw [hss] at hw2
        cases res2 with
        | error e2 =>
            simp only [run, hwk, hss]
            refine ⟨?_, trivial⟩
            intro c hmem
            rw [hw2, hw1, hfresh] at hmem
            simp only [List.nil_append] at hmem
            exact exited_not_mem_auth c hnew1 hmem
        | ok choice =>
            rcases hio : steam_shell_io sched shell t2 with ⟨o, sh3, t3⟩
            obtain ⟨outs, hb, hshape⟩ := steam_shell_io_sent_shape sched shell t2
            rw [hio] at hshape
            cases o with
            | exitSent code => simp only [run, hwk, hss, hio] at h; simp at h
            | clientEnded => simp only [run, hwk, hss, hio] at h; simp at h
            | crashed => simp only [run, hwk, hss, hio] at h; simp at h
            | ranOut => simp only [run, hwk, hss, hio] at h; simp at h
            | failed e3 =>
                simp only [run, hwk, hss, hio]
                refine ⟨?_, trivial⟩
                intro c hmem
                rcases hshape with ⟨c2, hc1, _⟩ | ⟨_, hc2⟩
                · exact absurd hc1 (by simp)
                · rw [hc2, hw2, hw1, hfresh] at hmem
                  simp only [List.nil_append] at hmem
                  rcases List.mem_append.mp hmem with hmem | hmem
                  · exact exited_not_mem_auth c hnew1 hmem
                  · exact exited_not_mem_stdouts c outs hmem

/-- Witness for C4: an `Error` message during streaming fails the loop at
once, and the corresponding run is fatal with no `Exited` and no linger. -/
theorem claim4_witness :
    (∃ e, steam_shell_io [Branch.fromClient] sampleShell
        ⟨[StreamItem.ok (ShellClientMessage.Error "some error occurred")], [], []⟩
      = (LoopOutcome.failed e, sampleShell, ⟨[], [], []⟩)) ∧
    ((∀ c, ShellServerMessage.Exited c ∉ (run "CorrectKey" false false true
        sampleShell [Branch.fromClient]
        ⟨sampleInbound ++ [StreamItem.ok (ShellClientMessage.Error "boom")],
         [], []⟩).sent) ∧
     (run "CorrectKey" false false true sampleShell [Branch.fromClient]
        ⟨sampleInbound ++ [StreamItem.ok (ShellClientMessage.Error "boom")],
         [], []⟩).lingered = false) :=
  ⟨claim4.1 [] sampleShell _ _ [] rfl trivial,
   claim4.2 "CorrectKey" false false true sampleShell [Branch.fromClient] _
     (SessionError.msg "received unexpected message from shell client Error boom")
     rfl (by decide)⟩

/-- C8: every `Stdout` the streaming loop sends carries 1 to 1024 bytes: the
provider is read into the fixed 1024-byte buffer, and a read of N > 0 bytes
is forwarded as exactly one `Stdout` of exactly those bytes. -/
theorem claim8 :
    (∀ (sched : List Branch) (shell : ShellModel) (t : Transport) (b : List Nat),
      ShellServerMessage.Stdout b ∈ (steam_shell_io sched shell t).2.2.sent →
      ShellServerMessage.Stdout b ∈ t.sent ∨ (1 ≤ b.length ∧ b.length ≤ 1024)) ∧
    (∀ (sched : List Branch) (shell shell2 : ShellModel) (t : Transport)
        (bytes : List Nat),
      ShellModel.read shell 1024 = (Except.ok bytes, shell2) → bytes ≠ [] →
      t.writeFaults = [] →
      steam_shell_io (Branch.fromShell :: sched) shell t
        = steam_shell_io sched shell2
            { t with sent := t.sent ++ [ShellServerMessage.Stdout bytes] }) := by
  constructor
  · intro sched shell t b hmem
    obtain ⟨outs, hb, hshape⟩ := steam_shell_io_sent_shape sched shell t
    rcases hshape with ⟨c, _, hc2⟩ | ⟨_, hc2⟩
    · rw [hc2] at hmem
      rcases List.mem_append.mp hmem with hmem | hmem
      · rcases List.mem_append.mp hmem with hmem | hmem
        · exact Or.inl hmem
        · have hb2 : b ∈ outs := by simpa using hmem
          exact Or.inr (hb b hb2)
      · simp at hmem
    · rw [hc2] at hmem
      rcases List.mem_append.mp hmem with hmem | hmem
      · exact Or.inl hmem
      · have hb2 : b ∈ outs := by simpa using hmem
        exact Or.inr (hb b hb2)
  · intro sched shell shell2 t bytes hrd hne hwf
    cases bytes with
    | nil => exact absurd rfl hne
    | cons b bs =>
        simp [steam_shell_io, hrd, Transport.write, hwf]

/-- Witness for C8: the sample provider chunk turns into one in-bounds
`Stdout`. -/
theorem claim8_witness :
    ShellServerMessage.Stdout [104, 105]
        ∈ (steam_shell_io [Branch.fromShell, Branch.fromShell] sampleShell
            ⟨[], [], []⟩).2.2.sent ∧
    (ShellServerMessage.Stdout [104, 105] ∈ (⟨[], [], []⟩ : Transport).sent ∨
      (1 ≤ ([104, 105] : List Nat).length ∧ ([104, 105] : List Nat).length ≤ 1024)) :=
  ⟨by decide,
   claim8.1 [Branch.fromShell, Branch.fromShell] sampleShell ⟨[], [], []⟩
     [104, 105] (by decide)⟩


end Tunshell
